import Mathlib

/-!
Verification of the file-processing service (`app.py`): a shallow embedding
of its pure logic, followed by theorems checking the specification's claims.

External collaborators (the Flask request layer, werkzeug's
`secure_filename`, Python's `json.loads`, the OpenAI client, and the
Firestore client) are modelled as explicit parameters or as explicit data:
`sanitize` stands for `secure_filename`, `jsonLoads` for `json.loads`,
`callOutcome` for the outcome of the OpenAI chat-completions call, and a
`List ParentDoc` for the Firestore collection contents.  Machine strings and
bytes are modelled as `String` and `List Nat` (byte values).
-/

set_option maxRecDepth 4096

/-! ## File classifier (`ALLOWED_EXTENSIONS`, `IMAGE_EXTENSIONS`,
`is_allowed_file`, `is_image_file`) -/

def ALLOWED_EXTENSIONS : List String :=
  [".txt", ".pdf", ".doc", ".docx", ".png", ".jpg", ".jpeg", ".bmp", ".gif", ".tiff", ".webp"]

def IMAGE_EXTENSIONS : List String :=
  [".png", ".jpg", ".jpeg", ".bmp", ".gif", ".tiff", ".webp"]

/-- Character list of `s.lower()`: Python's `str.lower`, ASCII-faithful. -/
def strLower (s : String) : List Char := s.data.map Char.toLower

/-- Models Python's `filename.lower().endswith(ext)`. -/
def lowerEndsWith (filename : String) (ext : String) : Bool :=
  ext.data.isSuffixOf (strLower filename)

/-- `is_allowed_file` from `app.py`: `any(filename.lower().endswith(ext) for ext
in ALLOWED_EXTENSIONS)`. -/
def is_allowed_file (filename : String) : Bool :=
  ALLOWED_EXTENSIONS.any (fun ext => lowerEndsWith filename ext)

/-- `is_image_file` from `app.py`: `any(filename.lower().endswith(ext) for ext
in IMAGE_EXTENSIONS)`. -/
def is_image_file (filename : String) : Bool :=
  IMAGE_EXTENSIONS.any (fun ext => lowerEndsWith filename ext)

/-! ## Base64 (Python `base64.b64encode(...).decode('utf-8')`)

Standard RFC 4648 base64 over byte lists, three input bytes per four output
characters, `'='`-padded.  `b64decode` is the standard mathematical inverse,
used to state the round-trip property. -/

def b64Chars : List Char :=
  "ABCDEFGHIJKLMNOPQRSTUVWXYZabcdefghijklmnopqrstuvwxyz0123456789+/".data

def encChar (n : Nat) : Char := b64Chars.getD n 'A'

def decChar (c : Char) : Nat := b64Chars.findIdx (fun d => d == c)

def b64encode : List Nat → List Char
  | [] => []
  | [a] => [encChar (a / 4), encChar (a % 4 * 16), '=', '=']
  | [a, b] => [encChar (a / 4), encChar (a % 4 * 16 + b / 16), encChar (b % 16 * 4), '=']
  | a :: b :: c :: rest =>
      encChar (a / 4) :: encChar (a % 4 * 16 + b / 16) ::
        encChar (b % 16 * 4 + c / 64) :: encChar (c % 64) :: b64encode rest

def b64decode : List Char → List Nat
  | x :: y :: z :: w :: rest =>
      if z = '=' then [decChar x * 4 + decChar y / 16]
      else if w = '=' then
        [decChar x * 4 + decChar y / 16, decChar y % 16 * 16 + decChar z / 4]
      else
        (decChar x * 4 + decChar y / 16) :: (decChar y % 16 * 16 + decChar z / 4) ::
          (decChar z % 4 * 64 + decChar w) :: b64decode rest
  | _ => []

/-! ## Strict UTF-8 decoding (Python `bytes.decode('utf-8')`)

Python's strict UTF-8 decoder: one to four byte sequences, continuation
bytes in `0x80..0xBF`, with the usual restricted ranges for the second byte
after `0xE0`/`0xED`/`0xF0`/`0xF4` leads (no overlong forms, no surrogates,
nothing above `U+10FFFF`).  Returns `none` exactly where Python raises
`UnicodeDecodeError`. -/

/-- Lower bound for the second byte of a three-byte sequence led by `b`. -/
def utf8Lo3 (b : Nat) : Nat := if b = 0xE0 then 0xA0 else 0x80

/-- Upper bound for the second byte of a three-byte sequence led by `b`. -/
def utf8Hi3 (b : Nat) : Nat := if b = 0xED then 0x9F else 0xBF

/-- Lower bound for the second byte of a four-byte sequence led by `b`. -/
def utf8Lo4 (b : Nat) : Nat := if b = 0xF0 then 0x90 else 0x80

/-- Upper bound for the second byte of a four-byte sequence led by `b`. -/
def utf8Hi4 (b : Nat) : Nat := if b = 0xF4 then 0x8F else 0xBF

/-- Consume one UTF-8 scalar from the front of the byte list: the decoded
character and the remaining bytes, or `none` on any ill-formed sequence. -/
def utf8Step : List Nat → Option (Char × List Nat)
  | [] => none
  | b :: rest =>
    if b < 0x80 then some (Char.ofNat b, rest)
    else if 0xC2 ≤ b ∧ b ≤ 0xDF then
      match rest with
      | b2 :: rest2 =>
        if 0x80 ≤ b2 ∧ b2 ≤ 0xBF then
          some (Char.ofNat ((b % 32) * 64 + b2 % 64), rest2)
        else none
      | [] => none
    else if 0xE0 ≤ b ∧ b ≤ 0xEF then
      match rest with
      | b2 :: b3 :: rest3 =>
        if utf8Lo3 b ≤ b2 ∧ b2 ≤ utf8Hi3 b ∧ 0x80 ≤ b3 ∧ b3 ≤ 0xBF then
          some (Char.ofNat ((b % 16) * 4096 + (b2 % 64) * 64 + b3 % 64), rest3)
        else none
      | _ => none
    else if 0xF0 ≤ b ∧ b ≤ 0xF4 then
      match rest with
      | b2 :: b3 :: b4 :: rest4 =>
        if utf8Lo4 b ≤ b2 ∧ b2 ≤ utf8Hi4 b ∧ 0x80 ≤ b3 ∧ b3 ≤ 0xBF ∧
            0x80 ≤ b4 ∧ b4 ≤ 0xBF then
          some (Char.ofNat ((b % 8) * 262144 + (b2 % 64) * 4096 + (b3 % 64) * 64 + b4 % 64),
            rest4)
        else none
      | _ => none
    else none

/-- Fuel-driven decoding loop: one unit of fuel per decoded scalar.  Each
scalar consumes at least one byte, so `bs.length` fuel always suffices. -/
def utf8DecodeAux : Nat → List Nat → Option (List Char)
  | _, [] => some []
  | 0, _ :: _ => none
  | Nat.succ n, b :: rest =>
    match utf8Step (b :: rest) with
    | some (c, rest') => (utf8DecodeAux n rest').map (fun cs => c :: cs)
    | none => none

def utf8Decode (bs : List Nat) : Option (List Char) := utf8DecodeAux bs.length bs

/-! ## Content loader (`process_file_content`) -/

/-- One uploaded file as handed over by the multipart form: its raw
filename and its raw byte content (`file.read()`). -/
structure UploadedFile where
  filename : String
  content : List Nat
deriving DecidableEq

/-- The per-file record built by `process_file_content`:
`{'filename': ..., 'content': ..., 'is_image': is_image_file(filename)}`. -/
structure Attachment where
  filename : String
  content : String
  is_image : Bool
deriving DecidableEq

/-- `process_file_content` from `app.py`.  `sanitize` stands for werkzeug's
`secure_filename` (an external collaborator applied to the raw filename
before any other step).  The Python `(data, error)` pair is rendered as
`Except`: `(None, msg)` becomes `.error msg` and `(data, None)` becomes
`.ok data`. -/
def process_file_content (sanitize : String → String) (file : UploadedFile) :
    Except String Attachment :=
  let filename := sanitize file.filename
  if ¬ is_allowed_file filename then
    .error ("File type not supported: " ++ filename)
  else
    let contentE : Except String String :=
      if is_image_file filename then
        .ok (String.mk (b64encode file.content))
      else
        match utf8Decode file.content with
        | some cs => .ok (String.mk cs)
        | none => .error ("Could not decode file as UTF-8 text: " ++ filename)
    match contentE with
    | .ok content => .ok ⟨filename, content, is_image_file filename⟩
    | .error e => .error e

/-! ## Prompt assembler (`PROMPT_TEMPLATE`, `analyze_documents_with_openai`)

The Python function both assembles the message list and handles the reply;
it is split here into `analyze_documents_messages` (the pure assembly) and
`analyze_documents_result` (reply handling, below).  Braces and apostrophes
inside the template literal are written with `\x..` escapes; the text is
otherwise byte-for-byte the `PROMPT_TEMPLATE` constant of `app.py`. -/

def PROMPT_TEMPLATE : String :=
"\x23## You are an expert assistant for extracting structured data from emails and attachments.

Given one or more emails (with or without attachments), your task is to analyze the content and return a JSON response strictly conforming to the following schema and requirements.

\x23# Standard Response Format (Always Conform to This Template)

\x7b
  \"MAIL_ID_1\": \x7b
    \"Summary\": \"One-paragraph summary of the email and its purpose.\",
    \"ActionItems\": [
      \"List actionable items for the user based on the email and its attachments.\"
    ],
    \"Urgency\": \"Low | Medium | High\",
    \"files\": \x7b
      \"FILE_ID_1\": \x7b
        \"Type\": \"...\",
        \"sender\": \"...\",
        \"received_date\": \"...\",
        \"Summary\": \"...\",
        \"Details\": \"...\",
        \"tags\": [\"...\"],
        \"Urgency\": \"Low | Medium | High\",
        // Include any other relevant fields found in the document, such as:
        // \"ActionRequired\": \"...\",
        // \"Amount\": \"...\",
        // \"PaymentDetails\": \x7b ... \x7d,
        // Additional context-dependent fields as present in the source (e.g., \"Authority\", \"Store\", \"Reference\", etc.)
      \x7d
      // More file_id entries as needed
    \x7d
    // The \x27files\x27 key is optional and present only if the mail has one or more attachments.
  \x7d,
  // More mail_id entries as needed

  \"calendar_add_details\": [
    \x7b
      \"date\": \"YYYY-MM-DD\",
      \"time\": \"HH:mm\",
      \"action\": \"...\",
      \"source_mail_id\": \"...\",
      \"source_file_id\": \"...\",  // or null if not applicable
      \"execution_details\": \x7b
        // Relevant structured fields for this event/action, e.g.:
        // \"amount\": \"...\",
        // \"reference\": \"...\",
        // \"location\": \"...\",
        // \"meeting_link\": \"...\",
        // Dynamic fields as appropriate for the context
      \x7d
    \x7d
    // More entries as needed
  ]
\x7d

\x23# Field Explanations

\x23## Per Email (MAIL_ID object):

- Summary: One-paragraph, human-readable summary of the email\x27s contents and its purpose.
- ActionItems: List of actionable tasks or required follow-ups for the user.
- Urgency: \"Low\", \"Medium\", or \"High\"—the overall priority.
- files: (Optional; only if there are attachments)
  An object where each key is a unique file ID. Each file object includes:
  - Type (required): Nature/type of the document (e.g., Invoice, Bill, Tax Notice).
  - sender (required): Who sent or authored the attachment.
  - received_date (required): When the attachment was received or dated.
  - Summary (required): Short summary of the attachment.
  - Details (required): Detailed description of the attachment.
  - tags (required): Array of relevant tags.
  - Urgency (required): \"Low\", \"Medium\", or \"High\".
  - ActionRequired, Amount, PaymentDetails: (Include if available)—and any other relevant fields found in the attachment, using the same field names and data types.

\x23## Per Calendar Entry (calendar_add_details array):

Each entry must include:
- date: Date of the event/action (format: YYYY-MM-DD).
- time: Time of the event/action (format: HH:mm or as in examples).
- action: Human-readable description of the event/action.
- source_mail_id: The mail ID this entry was derived from.
- source_file_id: The file ID this entry was derived from, or null if not from an attachment.
- execution_details: Object of relevant, structured fields (amount, reference, location, meeting link, etc.), as appropriate for the action.

\x23# General Rules

- Always conform to the above JSON schema.
- All required fields must be present (if no data, use \"NA\", null, or empty arrays/objects as appropriate).
- Always include calendar_add_details as an array (even if empty).
- Omit the files object if the email has no attachments.
- Never output text or explanation outside the JSON.
- Extract any additional relevant fields present in the input and include them at the correct level, using the source field name and data type.
- Maintain field order, spelling, and types as in the schema and examples.

Your instructions:
- Always conform to the Standard Response Format and field rules.
- Never include any text outside the required JSON.
- Include any and all relevant fields found in the input, following the schema.
- Maintain field order, spelling, and structure.
"

/-- One element of an OpenAI message's structured content list. -/
inductive ContentPart where
  | text (s : String)
  | imageUrl (url : String)
deriving DecidableEq

/-- A message's `content`: either a plain string or a structured list. -/
inductive MsgContent where
  | str (s : String)
  | parts (ps : List ContentPart)
deriving DecidableEq

/-- One chat message: `{"role": ..., "content": ...}`. -/
structure Message where
  role : String
  content : MsgContent
deriving DecidableEq

/-- The fixed system instruction message. -/
def systemMessage : Message :=
  ⟨"system", .str "You are a helpful assistant for email and document data extraction."⟩

/-- The fixed task-template message. -/
def templateMessage : Message := ⟨"user", .str PROMPT_TEMPLATE⟩

/-- The message appended for an image attachment: filename as text plus the
base64 content as an embedded-data URL with the fixed `image/jpeg` subtype. -/
def imageMessageOf (f : Attachment) : Message :=
  ⟨"user", .parts [.text ("Attachment: " ++ f.filename),
                   .imageUrl ("data:image/jpeg;base64," ++ f.content)]⟩

/-- The `for i, file_data in enumerate(files_data, 1)` loop of
`analyze_documents_with_openai`: accumulates the `email_content` string and
appends one message per image attachment to `msgs`. -/
def attachLoop (i : Nat) (emailContent : String) (msgs : List Message) :
    List Attachment → String × List Message
  | [] => (emailContent, msgs)
  | f :: rest =>
    let emailContent := emailContent ++ "Attachment " ++ toString i ++ ": " ++ f.filename ++ "\n"
    if f.is_image then
      attachLoop (i + 1) emailContent (msgs ++ [imageMessageOf f]) rest
    else
      attachLoop (i + 1) (emailContent ++ "Content: " ++ f.content ++ "\n\n") msgs rest

/-- The full message list assembled by `analyze_documents_with_openai` before
the chat-completions call. -/
def analyze_documents_messages (mail_id : String) (files_data : List Attachment) :
    List Message :=
  let base := [systemMessage, templateMessage]
  let emailContent := "Mail ID: " ++ mail_id ++ "\n\n"
  if files_data.isEmpty then
    base ++ [⟨"user", .str (emailContent ++ "This email has no attachments.\n")⟩]
  else
    let emailContent := emailContent ++ "This email has " ++ toString files_data.length
      ++ " attachment(s):\n\n"
    let r := attachLoop 1 emailContent base files_data
    r.2 ++ [⟨"user", .str r.1⟩]

/-! ## Completion invoker (reply handling of `analyze_documents_with_openai`) -/

/-- A JSON value, the result of Python's `json.loads`. -/
inductive Json where
  | null
  | bool (b : Bool)
  | num (n : Int)
  | str (s : String)
  | arr (elems : List Json)
  | obj (fields : List (String × Json))

/-- The result record of `analyze_documents_with_openai`: keys `mail_id`,
`extracted_data`, `status`, and (in the error cases only) `error`. -/
structure AnalysisResult where
  mail_id : String
  extracted_data : Json
  status : String
  error : Option String

/-- Reply handling of `analyze_documents_with_openai`.  `callOutcome` is the
outcome of the external chat-completions call (`.error e` for any client
exception, `.ok reply` for the returned choice text); `jsonLoads` is
Python's `json.loads`, returning the parser's message on failure.  Matches
the `try/except json.JSONDecodeError/except Exception` structure. -/
def analyze_documents_result (jsonLoads : String → Except String Json)
    (mail_id : String) (callOutcome : Except String String) : AnalysisResult :=
  match callOutcome with
  | .ok reply =>
    match jsonLoads reply with
    | .ok j => ⟨mail_id, j, "success", none⟩
    | .error e => ⟨mail_id, Json.obj [], "error", some ("JSON parsing error: " ++ e)⟩
  | .error e => ⟨mail_id, Json.obj [], "error", some e⟩

/-! ## The `/process` endpoint (`process_files`) -/

/-- The JSON body (plus HTTP code) returned by `process_files`. -/
structure ProcessResponse where
  code : Nat
  status : String
  mail_id : String
  total_attachments : Nat
  result : AnalysisResult

/-- The per-file loop of `process_files`: skip files whose raw filename is
the empty string, drop files on which `process_file_content` reports an
error, keep the rest. -/
def process_files_data (sanitize : String → String) (files : List UploadedFile) :
    List Attachment :=
  files.filterMap (fun f =>
    if f.filename = "" then none
    else (process_file_content sanitize f).toOption)

/-- `process_files` from `app.py`: `form_mail_id` is `request.form.get('mail_id')`
(defaulted to `"mail_001"`), `files` is `request.files.getlist('files')` when
the form has a `files` field.  Always HTTP 200 with the analysis result
embedded. -/
def process_files (sanitize : String → String) (jsonLoads : String → Except String Json)
    (form_mail_id : Option String) (files : Option (List UploadedFile))
    (callOutcome : Except String String) : ProcessResponse :=
  let mail_id := form_mail_id.getD "mail_001"
  let files_data := match files with
    | some fs => process_files_data sanitize fs
    | none => []
  ⟨200, "completed", mail_id, files_data.length,
    analyze_documents_result jsonLoads mail_id callOutcome⟩

/-! ## Collection-join query (`query_firestore_with_subcollection`) -/

/-- A Firestore document: its id and its fields (equality-filterable values
modelled as strings, as produced from the query parameters). -/
structure FsDoc where
  id : String
  fields : List (String × String)
deriving DecidableEq

/-- A document of the parent collection together with its subcollections. -/
structure ParentDoc where
  id : String
  fields : List (String × String)
  subcollections : List (String × List FsDoc)
deriving DecidableEq

/-- A conjunction of `.where(field, "==", value)` clauses applied to a
document's fields. -/
def matchesFilters (filters : List (String × String)) (fields : List (String × String)) :
    Bool :=
  filters.all (fun fv => fields.lookup fv.1 == some fv.2)

/-- One merged entry of the result: parent id and fields with the filtered
child documents attached under the subcollection's name. -/
structure JoinedRecord where
  id : String
  fields : List (String × String)
  subName : String
  children : List FsDoc
deriving DecidableEq

/-- The documents of `p`'s subcollection named `subcollection_name`. -/
def childDocs (p : ParentDoc) (subcollection_name : String) : List FsDoc :=
  (p.subcollections.lookup subcollection_name).getD []

/-- `query_firestore_with_subcollection` from `app.py`, over an explicit
model `docs` of the Firestore collection's contents.  A parent is kept when
`not subcollection_filters or sub_data` holds, i.e. when the child filter
set is empty or some filtered child exists. -/
def query_firestore_with_subcollection (docs : List ParentDoc)
    (subcollection_name : String)
    (collection_filters subcollection_filters : List (String × String)) :
    List JoinedRecord :=
  (docs.filter (fun d => matchesFilters collection_filters d.fields)).filterMap
    (fun d =>
      let sub_data := (childDocs d subcollection_name).filter
        (fun s => matchesFilters subcollection_filters s.fields)
      if subcollection_filters = [] ∨ sub_data ≠ [] then
        some ⟨d.id, d.fields, subcollection_name, sub_data⟩
      else none)

/-! ## Routes and the API-key check (`require_api_key`, the two routes) -/

/-- The request data the auth check can see: the `X-API-Key` header
(`none` when the header is missing). -/
structure HttpRequest where
  apiKeyHeader : Option String
deriving DecidableEq

/-- Python truthiness of `os.getenv("API_KEY")`: `None` and the empty
string are falsy. -/
def secretTruthy : Option String → Bool
  | none => false
  | some s => s != ""

/-- The rejection condition of the `require_api_key` decorator:
`expected_key and api_key != expected_key`. -/
def require_api_key (expected_key : Option String) (req : HttpRequest) : Bool :=
  secretTruthy expected_key && req.apiKeyHeader != expected_key

/-- Body of the query route's response. -/
inductive QueryBody where
  | err (error : String)
  | success (data : List JoinedRecord)
deriving DecidableEq

/-- `query_collection_with_subcollection_route`: guarded by
`require_api_key`; on rejection HTTP 401 with `{status: "error", error:
"Invalid API key"}`, otherwise HTTP 200 with the query results. -/
def query_collection_route (expected_key : Option String) (req : HttpRequest)
    (docs : List ParentDoc) (subcollection : String)
    (collection_filters subcollection_filters : List (String × String)) :
    Nat × QueryBody :=
  if require_api_key expected_key req then
    (401, .err "Invalid API key")
  else
    (200, .success (query_firestore_with_subcollection docs subcollection
      collection_filters subcollection_filters))

/-- The `/process` route: it carries no `require_api_key` decorator, so the
configured secret and the request's header are accepted but never consulted. -/
def process_route (expected_key : Option String) (req : HttpRequest)
    (sanitize : String → String) (jsonLoads : String → Except String Json)
    (form_mail_id : Option String) (files : Option (List UploadedFile))
    (callOutcome : Except String String) : ProcessResponse :=
  process_files sanitize jsonLoads form_mail_id files callOutcome

/-! ## Helper lemmas: base64 -/

/-- Decoding inverts the sextet table on its 64 entries. -/
theorem decChar_encChar (n : Nat) (h : n < 64) : decChar (encChar n) = n := by
  have hfin : ∀ m : Fin 64, decChar (encChar m.val) = m.val := by decide
  exact hfin ⟨n, h⟩

/-- No sextet encodes to the padding character. -/
theorem encChar_ne_pad (n : Nat) (h : n < 64) : encChar n ≠ '=' := by
  have hfin : ∀ m : Fin 64, encChar m.val ≠ '=' := by decide
  exact hfin ⟨n, h⟩

/-- Base64 round trip on byte lists: decoding the encoding of any byte
sequence gives back the bytes. -/
theorem b64decode_encode : ∀ bs : List Nat, (∀ b ∈ bs, b < 256) →
    b64decode (b64encode bs) = bs
  | [], _ => rfl
  | [a], h => by
      have ha : a < 256 := h a (by simp)
      show b64decode [encChar (a / 4), encChar (a % 4 * 16), '=', '='] = [a]
      rw [b64decode, if_pos rfl,
        decChar_encChar _ (by omega), decChar_encChar _ (by omega)]
      simp only [List.cons.injEq, and_true]
      omega
  | [a, b], h => by
      have ha : a < 256 := h a (by simp)
      have hb : b < 256 := h b (by simp)
      show b64decode [encChar (a / 4), encChar (a % 4 * 16 + b / 16),
        encChar (b % 16 * 4), '='] = [a, b]
      rw [b64decode, if_neg (encChar_ne_pad _ (by omega)), if_pos rfl,
        decChar_encChar _ (by omega), decChar_encChar _ (by omega),
        decChar_encChar _ (by omega)]
      simp only [List.cons.injEq, and_true]
      refine ⟨by omega, by omega⟩
  | a :: b :: c :: rest, h => by
      have ha : a < 256 := h a (by simp)
      have hb : b < 256 := h b (by simp)
      have hc : c < 256 := h c (by simp)
      have ih := b64decode_encode rest (fun x hx => h x (by simp [hx]))
      show b64decode (encChar (a / 4) :: encChar (a % 4 * 16 + b / 16) ::
        encChar (b % 16 * 4 + c / 64) :: encChar (c % 64) :: b64encode rest)
        = a :: b :: c :: rest
      rw [b64decode, if_neg (encChar_ne_pad _ (by omega)),
        if_neg (encChar_ne_pad _ (by omega)),
        decChar_encChar _ (by omega), decChar_encChar _ (by omega),
        decChar_encChar _ (by omega), decChar_encChar _ (by omega), ih]
      simp only [List.cons.injEq, and_true]
      refine ⟨by omega, by omega, by omega⟩

/-! ## Helper lemmas: classifier and content loader -/

/-- Image extensions are a subset of allowed extensions, so an image
filename is always allowed. -/
theorem image_allowed (filename : String) (h : is_image_file filename = true) :
    is_allowed_file filename = true := by
  simp only [is_image_file, List.any_eq_true] at h
  obtain ⟨ext, hmem, hsuf⟩ := h
  simp only [is_allowed_file, List.any_eq_true]
  refine ⟨ext, ?_, hsuf⟩
  simp only [IMAGE_EXTENSIONS, List.mem_cons, List.not_mem_nil, or_false] at hmem
  simp only [ALLOWED_EXTENSIONS, List.mem_cons, List.not_mem_nil, or_false]
  tauto

/-- On an image filename the loader returns the base64-encoded attachment. -/
theorem process_file_content_image (sanitize : String → String) (file : UploadedFile)
    (himg : is_image_file (sanitize file.filename) = true) :
    process_file_content sanitize file =
      .ok ⟨sanitize file.filename, String.mk (b64encode file.content), true⟩ := by
  have hall := image_allowed _ himg
  simp [process_file_content, hall, himg]

/-! ## Helper lemmas: UTF-8 -/

theorem utf8Hi3_le (b : Nat) : utf8Hi3 b ≤ 0xBF := by
  unfold utf8Hi3; split <;> omega

theorem utf8Hi4_le (b : Nat) : utf8Hi4 b ≤ 0xBF := by
  unfold utf8Hi4; split <;> omega

/-- The byte `0xFF` can never start a UTF-8 scalar. -/
theorem utf8Step_head_255 (rest : List Nat) : utf8Step (255 :: rest) = none := by
  simp only [utf8Step]
  rw [if_neg (by omega), if_neg (by omega), if_neg (by omega), if_neg (by omega)]

/-- A decoding step never consumes the byte `0xFF` from the tail: every
consumed continuation byte is at most `0xBF`. -/
theorem utf8Step_mem_255 (b : Nat) (rest : List Nat) (c : Char) (rest' : List Nat)
    (h : utf8Step (b :: rest) = some (c, rest')) (hm : 255 ∈ rest) : 255 ∈ rest' := by
  cases rest with
  | nil => simp at hm
  | cons b2 r2 =>
    cases r2 with
    | nil =>
      simp only [utf8Step] at h
      split_ifs at h with h1 h2 hc h3 h4
      · obtain ⟨rfl, rfl⟩ := Prod.mk.inj (Option.some.inj h)
        exact hm
      · obtain ⟨rfl, rfl⟩ := Prod.mk.inj (Option.some.inj h)
        rcases List.mem_cons.mp hm with hb2 | hf
        · omega
        · simp at hf
    | cons b3 r3 =>
      cases r3 with
      | nil =>
        simp only [utf8Step] at h
        split_ifs at h with h1 h2 hc h3 hc3 h4
        · obtain ⟨rfl, rfl⟩ := Prod.mk.inj (Option.some.inj h)
          exact hm
        · obtain ⟨rfl, rfl⟩ := Prod.mk.inj (Option.some.inj h)
          rcases List.mem_cons.mp hm with hb2 | hf
          · omega
          · exact hf
        · obtain ⟨rfl, rfl⟩ := Prod.mk.inj (Option.some.inj h)
          have := utf8Hi3_le b
          rcases List.mem_cons.mp hm with hb2 | hf
          · omega
          · rcases List.mem_cons.mp hf with hb3 | hf'
            · omega
            · simp at hf'
      | cons b4 r4 =>
        simp only [utf8Step] at h
        split_ifs at h with h1 h2 hc h3 hc3 h4 hc4
        · obtain ⟨rfl, rfl⟩ := Prod.mk.inj (Option.some.inj h)
          exact hm
        · obtain ⟨rfl, rfl⟩ := Prod.mk.inj (Option.some.inj h)
          rcases List.mem_cons.mp hm with hb2 | hf
          · omega
          · exact hf
        · obtain ⟨rfl, rfl⟩ := Prod.mk.inj (Option.some.inj h)
          have := utf8Hi3_le b
          rcases List.mem_cons.mp hm with hb2 | hf
          · omega
          · rcases List.mem_cons.mp hf with hb3 | hf'
            · omega
            · exact hf'
        · obtain ⟨rfl, rfl⟩ := Prod.mk.inj (Option.some.inj h)
          have := utf8Hi4_le b
          rcases List.mem_cons.mp hm with hb2 | hf
          · omega
          · rcases List.mem_cons.mp hf with hb3 | hf'
            · omega
            · rcases List.mem_cons.mp hf' with hb4 | hf''
              · omega
              · exact hf''

/-- Fuel-level statement: a byte list containing `0xFF` never decodes. -/
theorem utf8DecodeAux_mem_255 : ∀ (n : Nat) (bs : List Nat), 255 ∈ bs →
    utf8DecodeAux n bs = none := by
  intro n
  induction n with
  | zero =>
    intro bs hm
    cases bs with
    | nil => simp at hm
    | cons b rest => rfl
  | succ n ih =>
    intro bs hm
    cases bs with
    | nil => simp at hm
    | cons b rest =>
      rw [utf8DecodeAux]
      rcases List.mem_cons.mp hm with hb | hr
      · rw [← hb, utf8Step_head_255]
      · cases hstep : utf8Step (b :: rest) with
        | none => rfl
        | some p =>
          obtain ⟨c, rest'⟩ := p
          show Option.map (fun cs => c :: cs) (utf8DecodeAux n rest') = none
          rw [ih rest' (utf8Step_mem_255 b rest c rest' hstep hr)]
          rfl

/-- A byte list containing `0xFF` is never valid UTF-8. -/
theorem utf8Decode_of_mem_255 (bs : List Nat) (hmem : 255 ∈ bs) :
    utf8Decode bs = none :=
  utf8DecodeAux_mem_255 bs.length bs hmem

/-! ## Helper lemmas: prompt assembly

Spec-side recomputation of the summary block, against which the loop is
characterized: the image messages are exactly the image attachments in
upload order, and the single summary text block collects the
`Attachment i: name` header lines and the inlined non-image contents. -/

/-- The part of the `email_content` string contributed by the enumerate
loop, starting at counter `i`. -/
def mailSummaryBody : Nat → List Attachment → String
  | _, [] => ""
  | i, f :: rest =>
    "Attachment " ++ toString i ++ ": " ++ f.filename ++ "\n"
      ++ (if f.is_image then "" else "Content: " ++ f.content ++ "\n\n")
      ++ mailSummaryBody (i + 1) rest

/-- The full mail-summary text block: mail id, attachment count, and the
loop contributions. -/
def mailSummaryText (mail_id : String) (files_data : List Attachment) : String :=
  if files_data.isEmpty then
    "Mail ID: " ++ mail_id ++ "\n\n" ++ "This email has no attachments.\n"
  else
    "Mail ID: " ++ mail_id ++ "\n\n" ++ "This email has " ++ toString files_data.length
      ++ " attachment(s):\n\n" ++ mailSummaryBody 1 files_data

/-- Loop characterization: `attachLoop` extends the accumulated string by
the summary body and appends exactly one image message per image
attachment, in order. -/
theorem attachLoop_spec : ∀ (files : List Attachment) (i : Nat) (acc : String)
    (msgs : List Message),
    attachLoop i acc msgs files =
      (acc ++ mailSummaryBody i files,
       msgs ++ (files.filter (fun f => f.is_image)).map imageMessageOf)
  | [], i, acc, msgs => by
      simp [attachLoop, mailSummaryBody]
  | f :: rest, i, acc, msgs => by
      cases hf : f.is_image with
      | true =>
        simp only [attachLoop, hf, if_true]
        rw [attachLoop_spec rest]
        simp [mailSummaryBody, hf, String.append_assoc, List.append_assoc,
          List.filter_cons, String.append_empty, -String.reduceAppend]
      | false =>
        simp only [attachLoop, hf, Bool.false_eq_true, if_false]
        rw [attachLoop_spec rest]
        simp [mailSummaryBody, hf, String.append_assoc, List.append_assoc,
          List.filter_cons, -String.reduceAppend]

/-! ## Claim C1 -/

/-- Claim C1, counterexample.  The claim says the mail-summary text block is
emitted first among the user content that follows the template.  For mail id
`"m1"` and a single image attachment, the assembled list is in fact
`[system, template, image message, summary block]`: position 2 (the first
user content after the template) holds the image message, and the summary
block comes last, at position 3 — refuting the claimed order. -/
theorem claim1_counterexample :
    analyze_documents_messages "m1" [⟨"a.png", "QUJD", true⟩] =
      [systemMessage, templateMessage,
       ⟨"user", MsgContent.parts [ContentPart.text "Attachment: a.png",
          ContentPart.imageUrl "data:image/jpeg;base64,QUJD"]⟩,
       ⟨"user", MsgContent.str
          "Mail ID: m1\n\nThis email has 1 attachment(s):\n\nAttachment 1: a.png\n"⟩] ∧
    (analyze_documents_messages "m1" [⟨"a.png", "QUJD", true⟩])[2]? ≠
      some ⟨"user", MsgContent.str
        "Mail ID: m1\n\nThis email has 1 attachment(s):\n\nAttachment 1: a.png\n"⟩ := by
  constructor
  · rfl
  · intro h
    have h2 := Option.some.inj h
    have h3 := congrArg Message.content h2
    exact MsgContent.noConfusion h3

/-- Claim C1, amended: for every mail identifier and attachment list, the
assembled message list is the fixed system instruction, the fixed task
template, then one image message per image attachment in upload order, and
finally — last among the user content, not first — the single mail-summary
text block carrying the mail id, the attachment count, the per-attachment
header lines, and the inlined text of every non-image attachment in upload
order.  (Non-image attachments get no message of their own.) -/
theorem claim1_amended_message_order (mail_id : String) (files_data : List Attachment) :
    analyze_documents_messages mail_id files_data =
      [systemMessage, templateMessage]
        ++ (files_data.filter (fun f => f.is_image)).map imageMessageOf
        ++ [⟨"user", MsgContent.str (mailSummaryText mail_id files_data)⟩] := by
  cases files_data with
  | nil => simp [analyze_documents_messages, mailSummaryText]
  | cons f rest =>
    simp only [analyze_documents_messages, List.isEmpty_cons, Bool.false_eq_true,
      if_false]
    rw [attachLoop_spec]
    simp [mailSummaryText, String.append_assoc, List.append_assoc, -String.reduceAppend]

/-! ## Claim C2 -/

/-- Claim C2: the collection-join inclusion invariant.  When the child
filter set is non-empty, every record in the result carries a non-empty
child list, each of whose members matches the child filters — so a parent
appears only when at least one filtered child exists.  When the child
filter set is empty, every fetched parent (one matching the parent filters)
appears in the result with its full unfiltered child list attached. -/
theorem claim2_join_inclusion_invariant (docs : List ParentDoc) (sub : String)
    (cf sf : List (String × String)) :
    (sf ≠ [] → ∀ r ∈ query_firestore_with_subcollection docs sub cf sf,
      r.children ≠ [] ∧ ∀ c ∈ r.children, matchesFilters sf c.fields = true) ∧
    (sf = [] → ∀ p ∈ docs, matchesFilters cf p.fields = true →
      (⟨p.id, p.fields, sub, childDocs p sub⟩ : JoinedRecord) ∈
        query_firestore_with_subcollection docs sub cf sf) := by
  constructor
  · intro hsf r hr
    simp only [query_firestore_with_subcollection, List.mem_filterMap] at hr
    obtain ⟨d, hd, hsome⟩ := hr
    split at hsome
    case isTrue hcond =>
      rcases hcond with hempty | hne
      · exact absurd hempty hsf
      · cases Option.some.inj hsome
        refine ⟨hne, ?_⟩
        intro c hc
        exact (List.mem_filter.mp hc).2
    case isFalse hcond => exact Option.noConfusion hsome
  · intro hsf p hp hmatch
    subst hsf
    simp only [query_firestore_with_subcollection, List.mem_filterMap]
    refine ⟨p, List.mem_filter.mpr ⟨hp, hmatch⟩, ?_⟩
    rw [if_pos (Or.inl trivial)]
    simp [matchesFilters]

/-- Witness for C2 on a two-parent store: with the child filter
`{t: "1"}` the only surviving record keeps its (non-empty) matching child,
and with no child filter the first parent appears with its full child
list. -/
theorem claim2_witness :
    (JoinedRecord.children ⟨"p1", [("status", "open")], "items",
        [⟨"c1", [("t", "1")]⟩]⟩ ≠ []) ∧
    (⟨"p1", [("status", "open")], "items",
        [⟨"c1", [("t", "1")]⟩, ⟨"c2", [("t", "2")]⟩]⟩ : JoinedRecord) ∈
      query_firestore_with_subcollection
        [⟨"p1", [("status", "open")],
            [("items", [⟨"c1", [("t", "1")]⟩, ⟨"c2", [("t", "2")]⟩])]⟩,
         ⟨"p2", [("status", "closed")], [("items", [⟨"c3", [("t", "2")]⟩])]⟩]
        "items" [] [] := by
  constructor
  · exact ((claim2_join_inclusion_invariant
      [⟨"p1", [("status", "open")],
          [("items", [⟨"c1", [("t", "1")]⟩, ⟨"c2", [("t", "2")]⟩])]⟩,
       ⟨"p2", [("status", "closed")], [("items", [⟨"c3", [("t", "2")]⟩])]⟩]
      "items" [] [("t", "1")]).1 (by decide)
      ⟨"p1", [("status", "open")], "items", [⟨"c1", [("t", "1")]⟩]⟩ (by decide)).1
  · exact (claim2_join_inclusion_invariant
      [⟨"p1", [("status", "open")],
          [("items", [⟨"c1", [("t", "1")]⟩, ⟨"c2", [("t", "2")]⟩])]⟩,
       ⟨"p2", [("status", "closed")], [("items", [⟨"c3", [("t", "2")]⟩])]⟩]
      "items" [] []).2 rfl
      ⟨"p1", [("status", "open")],
        [("items", [⟨"c1", [("t", "1")]⟩, ⟨"c2", [("t", "2")]⟩])]⟩
      (by decide) (by decide)

/-! ## Claim C3 -/

/-- Claim C3: when the model's reply text is not valid JSON (`jsonLoads`
returns the parser's message `e`), the invoker returns a result record with
`status = "error"` and error string `"JSON parsing error: " ++ e`, for every
mail id; and the `/process` response is still HTTP 200 with that error
record embedded.  (The embedding is total, so no exception can escape the
request boundary.) -/
theorem claim3_parse_error_result (jsonLoads : String → Except String Json)
    (reply e : String) (h : jsonLoads reply = .error e) :
    (∀ mail_id, analyze_documents_result jsonLoads mail_id (.ok reply) =
      ⟨mail_id, Json.obj [], "error", some ("JSON parsing error: " ++ e)⟩) ∧
    (∀ sanitize form_mail_id files,
      (process_files sanitize jsonLoads form_mail_id files (.ok reply)).code = 200 ∧
      (process_files sanitize jsonLoads form_mail_id files (.ok reply)).result =
        ⟨form_mail_id.getD "mail_001", Json.obj [], "error",
          some ("JSON parsing error: " ++ e)⟩) := by
  have hres : ∀ mail_id, analyze_documents_result jsonLoads mail_id (.ok reply) =
      ⟨mail_id, Json.obj [], "error", some ("JSON parsing error: " ++ e)⟩ := by
    intro mail_id
    simp [analyze_documents_result, h]
  exact ⟨hres, fun sanitize form_mail_id files => ⟨rfl, hres _⟩⟩

/-- Witness for C3: a parser that rejects `"not json"` with message
`"Expecting value"` yields the error-status record and an HTTP 200
response. -/
theorem claim3_witness :
    analyze_documents_result (fun _ => .error "Expecting value") "mail_001"
        (.ok "not json") =
      ⟨"mail_001", Json.obj [], "error", some "JSON parsing error: Expecting value"⟩ ∧
    (process_files id (fun _ => .error "Expecting value") none none
        (.ok "not json")).code = 200 := by
  have h := claim3_parse_error_result (fun _ => .error "Expecting value")
    "not json" "Expecting value" rfl
  exact ⟨h.1 "mail_001", (h.2 id none none).1⟩

/-! ## Claim C4 -/

/-- Claim C4: for every byte sequence uploaded under an image filename, the
loader succeeds and stores a base64 `content` string whose decoding gives
back exactly the original bytes. -/
theorem claim4_base64_roundtrip (sanitize : String → String) (file : UploadedFile)
    (himg : is_image_file (sanitize file.filename) = true)
    (hbytes : ∀ b ∈ file.content, b < 256) :
    (process_file_content sanitize file).toOption.map
      (fun att => b64decode att.content.data) = some file.content := by
  rw [process_file_content_image sanitize file himg]
  show some (b64decode (b64encode file.content)) = some file.content
  rw [b64decode_encode file.content hbytes]

/-- Witness for C4: the bytes `[0xFF, 0x00, 0x10]` under `"p.PNG"` encode to
`"/wAQ"` and decode back to the original bytes. -/
theorem claim4_witness :
    (process_file_content id ⟨"p.PNG", [255, 0, 16]⟩).toOption.map
      (fun att => b64decode att.content.data) = some [255, 0, 16] :=
  claim4_base64_roundtrip id ⟨"p.PNG", [255, 0, 16]⟩ (by decide) (by decide)

/-! ## Claim C5 -/

/-- Claim C5: for every filename whose sanitized form has an allowed
extension and content that is an image or valid UTF-8, the loader produces
an attachment whose `is_image` flag equals `is_image_file` of the sanitized
filename — i.e. it is true exactly when the filename ends, case-
insensitively, in one of the fixed image extensions. -/
theorem claim5_is_image_flag (sanitize : String → String) (file : UploadedFile)
    (hall : is_allowed_file (sanitize file.filename) = true)
    (hok : is_image_file (sanitize file.filename) = true ∨
      utf8Decode file.content ≠ none) :
    (process_file_content sanitize file).toOption.map (fun att => att.is_image)
      = some (is_image_file (sanitize file.filename)) := by
  by_cases himg : is_image_file (sanitize file.filename) = true
  · rw [process_file_content_image sanitize file himg, himg]
    rfl
  · have himg' : is_image_file (sanitize file.filename) = false := by
      simpa using himg
    have hutf : utf8Decode file.content ≠ none := by
      rcases hok with h | h
      · exact absurd h himg
      · exact h
    obtain ⟨cs, hcs⟩ : ∃ cs, utf8Decode file.content = some cs := by
      cases hd : utf8Decode file.content with
      | none => exact absurd hd hutf
      | some cs => exact ⟨cs, rfl⟩
    simp [process_file_content, hall, himg', hcs, Except.toOption]

/-- Witness for C5: an image filename (uppercase extension) yields
`is_image = true`; a text filename with ASCII bytes yields
`is_image = false`. -/
theorem claim5_witness :
    (process_file_content id ⟨"photo.JPG", [1, 2, 3]⟩).toOption.map
        (fun att => att.is_image) = some true ∧
    (process_file_content id ⟨"notes.txt", [104, 105]⟩).toOption.map
        (fun att => att.is_image) = some false := by
  constructor
  · exact claim5_is_image_flag id ⟨"photo.JPG", [1, 2, 3]⟩ (by decide)
      (Or.inl (by decide))
  · exact claim5_is_image_flag id ⟨"notes.txt", [104, 105]⟩ (by decide)
      (Or.inr (by decide))

/-! ## Claim C6 -/

/-- Claim C6: for an allowed non-image filename and content that is not
valid UTF-8, the loader fails with the `"Could not decode file as UTF-8
text"` message carrying the (sanitized) filename and produces no
attachment; in particular any content containing the byte `0xFF` fails this
way — content is never mangled or substituted. -/
theorem claim6_utf8_failure (sanitize : String → String) (file : UploadedFile)
    (hall : is_allowed_file (sanitize file.filename) = true)
    (himg : is_image_file (sanitize file.filename) = false) :
    (utf8Decode file.content = none →
      process_file_content sanitize file =
        .error ("Could not decode file as UTF-8 text: " ++ sanitize file.filename)) ∧
    (255 ∈ file.content →
      process_file_content sanitize file =
        .error ("Could not decode file as UTF-8 text: " ++ sanitize file.filename)) := by
  have hbase : utf8Decode file.content = none →
      process_file_content sanitize file =
        .error ("Could not decode file as UTF-8 text: " ++ sanitize file.filename) := by
    intro hd
    simp [process_file_content, hall, himg, hd]
  exact ⟨hbase, fun hmem => hbase (utf8Decode_of_mem_255 file.content hmem)⟩

/-- Witness for C6: the bytes `[0x68, 0xFF]` under `"a.txt"` make the
loader fail with the UTF-8 error message. -/
theorem claim6_witness :
    process_file_content id ⟨"a.txt", [104, 255]⟩ =
      .error "Could not decode file as UTF-8 text: a.txt" :=
  (claim6_utf8_failure id ⟨"a.txt", [104, 255]⟩ (by decide) (by decide)).2 (by decide)

/-! ## Claim C7 -/

/-- Claim C7: for a filename whose sanitized form has no allowed extension,
the loader fails with `"File type not supported"` naming that filename and
yields no attachment; and at the `/process` level such a file is dropped
from the batch — the response (including `total_attachments`) is exactly
the response for the batch without it, so processing continues and the
request is not aborted. -/
theorem claim7_unsupported_dropped (sanitize : String → String)
    (jsonLoads : String → Except String Json) (file : UploadedFile)
    (h : is_allowed_file (sanitize file.filename) = false) :
    process_file_content sanitize file =
      .error ("File type not supported: " ++ sanitize file.filename) ∧
    (∀ pre post, process_files_data sanitize (pre ++ file :: post) =
      process_files_data sanitize (pre ++ post)) ∧
    (∀ pre post form_mail_id callOutcome,
      process_files sanitize jsonLoads form_mail_id (some (pre ++ file :: post))
          callOutcome =
        process_files sanitize jsonLoads form_mail_id (some (pre ++ post))
          callOutcome) := by
  have herr : process_file_content sanitize file =
      .error ("File type not supported: " ++ sanitize file.filename) := by
    simp [process_file_content, h]
  have hdata : ∀ pre post, process_files_data sanitize (pre ++ file :: post) =
      process_files_data sanitize (pre ++ post) := by
    intro pre post
    simp only [process_files_data, List.filterMap_append, List.filterMap_cons]
    by_cases hblank : file.filename = ""
    · rw [if_pos hblank]
    · rw [if_neg hblank, herr]
      rfl
  refine ⟨herr, hdata, ?_⟩
  intro pre post form_mail_id callOutcome
  simp only [process_files, hdata]

/-- Witness for C7: dropping `"run.exe"` leaves the batch `["a.txt"]`
response unchanged. -/
theorem claim7_witness :
    process_file_content id ⟨"run.exe", [1]⟩ = .error "File type not supported: run.exe" ∧
    process_files_data id [⟨"run.exe", [1]⟩, ⟨"a.txt", [104]⟩] =
      process_files_data id [⟨"a.txt", [104]⟩] ∧
    process_files id (fun _ => .error "boom") none
        (some [⟨"run.exe", [1]⟩, ⟨"a.txt", [104]⟩]) (.ok "x") =
      process_files id (fun _ => .error "boom") none
        (some [⟨"a.txt", [104]⟩]) (.ok "x") := by
  have h := claim7_unsupported_dropped id (fun _ => .error "boom")
    ⟨"run.exe", [1]⟩ (by decide)
  exact ⟨h.1, h.2.1 [] [⟨"a.txt", [104]⟩], h.2.2 [] [⟨"a.txt", [104]⟩] none (.ok "x")⟩

/-! ## Claim C8 -/

/-- Claim C8: on the query route, when a (non-empty) secret is configured
and the `X-API-Key` header differs from it — including a missing header —
the request is rejected with HTTP 401 and the `{status: "error"}` body,
independently of the store contents (so before any processing); when no
secret is configured the check is disabled and every request proceeds to
the query with HTTP 200.  A secret set to the empty string is falsy in
Python and behaves as unconfigured, which the last conjunct records. -/
theorem claim8_api_key_gate (expected : Option String) (req : HttpRequest)
    (docs : List ParentDoc) (sub : String) (cf sf : List (String × String)) :
    (∀ s, expected = some s → s ≠ "" → req.apiKeyHeader ≠ expected →
      query_collection_route expected req docs sub cf sf =
        (401, QueryBody.err "Invalid API key")) ∧
    (expected = none →
      query_collection_route expected req docs sub cf sf =
        (200, QueryBody.success
          (query_firestore_with_subcollection docs sub cf sf))) ∧
    (expected = some "" →
      query_collection_route expected req docs sub cf sf =
        (200, QueryBody.success
          (query_firestore_with_subcollection docs sub cf sf))) := by
  refine ⟨?_, ?_, ?_⟩
  · intro s hs hne hdiff
    subst hs
    have hrej : require_api_key (some s) req = true := by
      simp [require_api_key, secretTruthy, hne, bne_iff_ne, hdiff]
    simp [query_collection_route, hrej]
  · intro hnone
    subst hnone
    simp [query_collection_route, require_api_key, secretTruthy]
  · intro hempty
    subst hempty
    simp [query_collection_route, require_api_key, secretTruthy]

/-- Witness for C8: a missing header against the secret `"sekret"` is
rejected with 401; with no secret configured a request with an arbitrary
header proceeds to the (empty) query result. -/
theorem claim8_witness :
    query_collection_route (some "sekret") ⟨none⟩ [] "items" [] [] =
      (401, QueryBody.err "Invalid API key") ∧
    query_collection_route none ⟨some "whatever"⟩ [] "items" [] [] =
      (200, QueryBody.success []) := by
  constructor
  · exact (claim8_api_key_gate (some "sekret") ⟨none⟩ [] "items" [] []).1
      "sekret" rfl (by decide) (by decide)
  · exact (claim8_api_key_gate none ⟨some "whatever"⟩ [] "items" [] []).2.1 rfl

/-! ## Claim C9 -/

/-- Claim C9: the `/process` route performs no API-key check at all — its
response is the same for every configured secret and every request header
(the first conjunct), and it always answers HTTP 200, never 401 (the
second).  By contrast the query route, guarded by `require_api_key`, does
reject a wrong key with 401 (the third conjunct), so only that route is
guarded. -/
theorem claim9_process_no_auth :
    (∀ expected expected' req req' sanitize jsonLoads form_mail_id files callOutcome,
      process_route expected req sanitize jsonLoads form_mail_id files callOutcome =
        process_route expected' req' sanitize jsonLoads form_mail_id files callOutcome) ∧
    (∀ expected req sanitize jsonLoads form_mail_id files callOutcome,
      (process_route expected req sanitize jsonLoads form_mail_id files
        callOutcome).code = 200) ∧
    (∀ docs sub cf sf,
      query_collection_route (some "k") ⟨some "wrong"⟩ docs sub cf sf =
        (401, QueryBody.err "Invalid API key")) := by
  refine ⟨fun _ _ _ _ _ _ _ _ _ => rfl, fun _ _ _ _ _ _ _ => rfl, ?_⟩
  intro docs sub cf sf
  simp [query_collection_route, require_api_key, secretTruthy]

/-! ## Claim C10 -/

/-- Claim C10: an uploaded file with an empty raw filename is skipped by
`/process` before any classification or loading: the attachment batch with
it equals the batch without it (for every sanitizer and content, so neither
`process_file_content` nor the classifier can observe it), the assembled
prompt is unchanged, and the response — in particular `total_attachments` —
is exactly that of the request without the file. -/
theorem claim10_empty_filename_skipped (sanitize : String → String)
    (jsonLoads : String → Except String Json) (file : UploadedFile)
    (h : file.filename = "") :
    (∀ pre post, process_files_data sanitize (pre ++ file :: post) =
      process_files_data sanitize (pre ++ post)) ∧
    (∀ pre post mail_id,
      analyze_documents_messages mail_id (process_files_data sanitize (pre ++ file :: post)) =
        analyze_documents_messages mail_id (process_files_data sanitize (pre ++ post))) ∧
    (∀ pre post form_mail_id callOutcome,
      process_files sanitize jsonLoads form_mail_id (some (pre ++ file :: post))
          callOutcome =
        process_files sanitize jsonLoads form_mail_id (some (pre ++ post))
          callOutcome) := by
  have hdata : ∀ pre post, process_files_data sanitize (pre ++ file :: post) =
      process_files_data sanitize (pre ++ post) := by
    intro pre post
    simp only [process_files_data, List.filterMap_append, List.filterMap_cons]
    rw [if_pos h]
  refine ⟨hdata, fun pre post mail_id => by rw [hdata], ?_⟩
  intro pre post form_mail_id callOutcome
  simp only [process_files, hdata]

/-- Witness for C10: a nameless file with non-empty bytes contributes
nothing next to `"a.txt"`. -/
theorem claim10_witness :
    process_files_data id [⟨"", [1, 2]⟩, ⟨"a.txt", [104]⟩] =
      process_files_data id [⟨"a.txt", [104]⟩] ∧
    process_files id (fun _ => .error "boom") none
        (some [⟨"", [1, 2]⟩, ⟨"a.txt", [104]⟩]) (.ok "x") =
      process_files id (fun _ => .error "boom") none
        (some [⟨"a.txt", [104]⟩]) (.ok "x") := by
  have h := claim10_empty_filename_skipped id (fun _ => .error "boom")
    ⟨"", [1, 2]⟩ rfl
  exact ⟨h.1 [] [⟨"a.txt", [104]⟩], h.2.2 [] [⟨"a.txt", [104]⟩] none (.ok "x")⟩
